import Mathlib

/-!
Verification of the table-extraction engine of parser-rosstat-kep.

The definitions below are a shallow embedding of the Python sources:
src/kep/csv2df/parser.py, src/kep/spec.py,
src/kep/pipeline/reader/boundaries.py and
src/kep/parsing_definition/parsing_definition.py.
Helper modules absent from the source tree (row_model, to_float,
row_splitter, label) are modelled from the specification and say so in
their doc comments.
-/

namespace Kep

/-! ### Character-list utilities (substring and digit helpers) -/

/-- True when the first list is an initial segment of the second. -/
def takesLead : List Char → List Char → Bool
  | [], _ => true
  | _ :: _, [] => false
  | a :: as, b :: bs => a = b && takesLead as bs

/-- True when the first list occurs contiguously inside the second,
    the semantics of the Python substring test. -/
def containsSeq (p : List Char) : List Char → Bool
  | [] => takesLead p []
  | c :: cs => takesLead p (c :: cs) || containsSeq p cs

/-- Python substring membership on strings. -/
def occursIn (p text : String) : Bool := containsSeq p.data text.data

def isDig (c : Char) : Bool := c.isDigit

/-- Numeric value of a digit list, most significant first. -/
def digitsVal (cs : List Char) : Nat :=
  cs.foldl (fun a c => a * 10 + (c.toNat - 48)) 0

/-! ### Numeric Cell Parser

Modelled from the spec: the module kep/csv2df/util/to_float.py is not in
the source tree; section 4.1 of the specification defines its contract:
strip whitespace; empty string or a standalone dash or em-dash is an
absent value (no error); a decimal comma is normalised to a point; a
cell that is then numeric parses to its value; anything else raises
MalformedNumber. -/

inductive SKey where
  | name (s : String)
  | cols (n : Nat)
deriving DecidableEq, Repr

inductive KepError where
  | malformedNumber (cell : String)
  | unknownRowShape (key : SKey)
  | missedLabels (labels : List String)
  | emptySequence
deriving DecidableEq, Repr

/-- Python str.strip whitespace, at the character level. -/
def isWhite (c : Char) : Bool :=
  c = ' ' || c = '\t' || c = '\n' || c = '\r'

/-- Strip leading and trailing whitespace from a character list. -/
def trimChars (cs : List Char) : List Char :=
  ((cs.dropWhile isWhite).reverse.dropWhile isWhite).reverse

/-- An exact decimal value num * 10 ^ (-scale).  Floating-point numbers
    parsed from decimal text are modelled exactly; no claim depends on
    float arithmetic. -/
structure Dec where
  num : Int
  scale : Nat
deriving DecidableEq, Repr

/-- Break a character list at the first point character. -/
def breakAtDot : List Char → List Char × Option (List Char)
  | [] => ([], none)
  | c :: rest =>
      if c = '.' then ([], some rest)
      else
        let r := breakAtDot rest
        (c :: r.1, r.2)

/-- Parse an unsigned decimal numeral: digits with at most one point,
    at least one digit in total (a second point fails the digit test of
    the fractional part). -/
def parseCore (cs : List Char) : Option Dec :=
  match breakAtDot cs with
  | (a, none) =>
      if a ≠ [] ∧ a.all isDig then some ⟨(digitsVal a : Int), 0⟩ else none
  | (a, some b) =>
      if (a ≠ [] ∨ b ≠ []) ∧ a.all isDig ∧ b.all isDig then
        some ⟨(digitsVal (a ++ b) : Int), b.length⟩
      else none

/-- Parse an optionally signed decimal numeral. -/
def parseSigned : List Char → Option Dec
  | '-' :: rest => (parseCore rest).map (fun d => ⟨-d.num, d.scale⟩)
  | '+' :: rest => parseCore rest
  | cs => parseCore cs

/-- Placeholder cells: empty string, dash, en dash, em dash. -/
def placeholderCells : List (List Char) :=
  [[], ['-'], ['–'], ['—']]

/-- Normalise a decimal comma to a decimal point. -/
def commaDot (c : Char) : Char := if c = ',' then '.' else c

/-- Modelled from the spec: the Numeric Cell Parser (to_float). -/
def to_float (s : String) : Except KepError (Option Dec) :=
  if trimChars s.data ∈ placeholderCells then Except.ok none
  else
    match parseSigned ((trimChars s.data).map commaDot) with
    | some q => Except.ok (some q)
    | none => Except.error (KepError.malformedNumber s)

/-! ### Row model

Modelled from the spec: kep/csv2df/row_model.py is not in the source
tree; section 4.2 defines the Row Classifier: a row is a data row iff
its first cell matches a 4-digit year pattern (optionally followed by a
footnote marker) and every following cell is empty or passes the Numeric
Cell Parser. -/

/-- A footnote marker after the year digits: empty, or digits closed by
    a parenthesis, as in the source cell 20162). -/
def footnoteTail (rest : List Char) : Bool :=
  rest = [] || (rest.dropLast.all isDig && rest.getLast? = some ')')

/-- Modelled from the spec: first cell matches a 4-digit year pattern. -/
def isYearCell (s : String) : Bool :=
  let cs := trimChars s.data
  decide (4 ≤ cs.length) && (cs.take 4).all isDig && footnoteTail (cs.drop 4)

/-- A cell passes the Numeric Cell Parser when it does not raise. -/
def cellPasses (c : String) : Bool :=
  match to_float c with
  | Except.ok _ => true
  | Except.error _ => false

/-- Modelled from the spec: Row.is_datarow of the row model. -/
def is_datarow (row : List String) : Bool :=
  match row with
  | [] => false
  | c0 :: rest => isYearCell c0 && rest.all cellPasses

/-- Modelled from the spec: Row.year, the 4-digit year of a data row. -/
def rowYear (row : List String) : Nat :=
  digitsVal ((trimChars (row.headD "").data).take 4)

/-- Modelled from the spec: Row.data, the cells after the year cell. -/
def rowData (row : List String) : List String := row.drop 1

/-! ### Table Segmenter (split_to_tables, src/kep/csv2df/parser.py) -/

inductive PState where
  | INIT
  | DATA
  | HEADERS
deriving DecidableEq, Repr

/-- A raw segmented table: header rows then data rows. -/
structure TableRaw where
  headers : List (List String)
  datarows : List (List String)
deriving DecidableEq, Repr

/-- The loop body of split_to_tables: *headers* and *datarows* are the
    pending accumulators, *state* the state-machine state. -/
def splitGo (headers datarows : List (List String)) (state : PState) :
    List (List String) → List TableRaw
  | [] =>
      if headers ≠ [] ∧ datarows ≠ [] then [⟨headers, datarows⟩] else []
  | r :: rest =>
      if is_datarow r then
        splitGo headers (datarows ++ [r]) PState.DATA rest
      else
        if state = PState.DATA then
          ⟨headers, datarows⟩ :: splitGo [r] [] PState.HEADERS rest
        else
          splitGo (headers ++ [r]) datarows PState.HEADERS rest

/-- split_to_tables from src/kep/csv2df/parser.py. -/
def split_to_tables (rows : List (List String)) : List TableRaw :=
  splitGo [] [] PState.INIT rows

/-! ### Sequencing for fallible code

mapE threads a fallible function over a list, stopping at the first
raised error, which is the observable behaviour of materialising a
Python generator that may raise. -/

def mapE (f : α → Except KepError β) : List α → Except KepError (List β)
  | [] => Except.ok []
  | x :: xs =>
      match f x with
      | Except.error e => Except.error e
      | Except.ok y =>
          match mapE f xs with
          | Except.error e => Except.error e
          | Except.ok ys => Except.ok (y :: ys)

/-! ### Header Resolver (HeaderParser, src/kep/csv2df/parser.py)

Row.get_varname and Row.get_unit live in the absent row_model module and
are modelled from the spec, section 4.5: each ordered mapping table is
tried in registration order against the header text and the first entry
whose phrase occurs in the text wins. -/

/-- A header row together with its is_parsed flag (False on creation). -/
structure HRow where
  cells : List String
  is_parsed : Bool
deriving DecidableEq, Repr

/-- Modelled from the spec: the header text of a row is its first cell. -/
def rowText (cells : List String) : String := cells.headD ""

/-- Modelled from the spec: Row.get_unit — first entry of the ordered
    unit mapping whose phrase occurs in the header text wins. -/
def get_unit (units : List (String × String)) (text : String) : Option String :=
  match units.find? (fun p => occursIn p.1 text) with
  | some p => some p.2
  | none => none

/-- Modelled from the spec: Row.get_varname — same ordered first-match
    lookup against the variable-name mapping. -/
def get_varname (mapper : List (String × String)) (text : String) : Option String :=
  match mapper.find? (fun p => occursIn p.1 text) with
  | some p => some p.2
  | none => none

/-- One iteration of HeaderParser.set_label on one header row: resolve
    varname and unit against the row text and mark the row parsed when
    either lookup succeeds. -/
def hrowParse (mapper units : List (String × String)) (r : HRow) :
    Option String × Option String × HRow :=
  let v := get_varname mapper (rowText r.cells)
  let u := get_unit units (rowText r.cells)
  (v, u, ⟨r.cells, r.is_parsed || v.isSome || u.isSome⟩)

/-- The loop of HeaderParser.set_label: later rows overwrite earlier
    varname and unit findings, exactly as the Python loop assigns. -/
def setLabelGo (mapper units : List (String × String)) :
    List HRow → Option String → Option String →
    Option String × Option String × List HRow
  | [], v, u => (v, u, [])
  | r :: rs, v, u =>
      let pr := hrowParse mapper units r
      let v' := match pr.1 with | some x => some x | none => v
      let u' := match pr.2.1 with | some x => some x | none => u
      let rest := setLabelGo mapper units rs v' u'
      (rest.1, rest.2.1, pr.2.2 :: rest.2.2)

/-! ### Table, splitter registry and observation extraction -/

/-- A row splitter: data cells (year excluded) to
    (annual value, quarterly values, monthly values); the empty string
    stands for an absent annual value. -/
abbrev RowSplitter := List String → String × List String × List String

/-- The parsed table: headers carry is_parsed flags; varname, unit and
    splitter are the mutable fields of the Python Table, set during
    parse_tables. -/
structure KTable where
  headers : List HRow
  datarows : List (List String)
  varname : Option String
  unit : Option String
  splitter : Option RowSplitter

/-- make_label from the absent kep/csv2df/util/label.py, modelled from
    the spec: the label is variable_unit and exists only when both
    parts are resolved. -/
def make_label : Option String → Option String → Option String
  | some v, some u => some (v ++ "_" ++ u)
  | _, _ => none

def table_label (t : KTable) : Option String := make_label t.varname t.unit

/-- Table.has_unknown_lines: some header row was never marked parsed. -/
def has_unknown_lines (t : KTable) : Bool :=
  !(t.headers.all (fun r => r.is_parsed))

/-- count_columns from src/kep/csv2df/parser.py: the maximum cell count
    over the data rows; none models the ValueError Python max raises on
    an empty sequence. -/
def count_columns (datarows : List (List String)) : Option Nat :=
  match datarows.map List.length with
  | [] => none
  | n :: ns => some (ns.foldl max n)

/-- Modelled from the spec: a splitter for year + annual + 4 quarter
    cells (6 columns counting the year cell). -/
def splitter6 : RowSplitter :=
  fun data => (data.headD "", (data.drop 1).take 4, [])

/-- Modelled from the spec: year + annual + 4 quarters + 12 months. -/
def splitter18 : RowSplitter :=
  fun data => (data.headD "", (data.drop 1).take 4, (data.drop 5).take 12)

/-- Modelled from the spec: year + 12 month cells only. -/
def splitter13 : RowSplitter :=
  fun data => ("", [], data.take 12)

/-- Modelled from the spec: a named strategy for an unusual format. -/
def splitterSpecial : RowSplitter :=
  fun data => ("", data.take 4, [])

/-- Modelled from the spec: the Row Splitter Registry — a read-only
    mapping from a shape key to a splitter, with no entry for unknown
    shapes (the UnknownRowShape hard error). -/
def get_splitter : SKey → Option RowSplitter
  | SKey.cols 6 => some splitter6
  | SKey.cols 18 => some splitter18
  | SKey.cols 13 => some splitter13
  | SKey.name "special" => some splitterSpecial
  | _ => none

/-- The key Table.set_splitter looks up: the definition reader key when
    non-empty, else the table column count. -/
def chosen_key (reader : String) (datarows : List (List String)) : Option SKey :=
  if reader ≠ "" then some (SKey.name reader)
  else (count_columns datarows).map SKey.cols

/-- Table.set_splitter from src/kep/csv2df/parser.py. -/
def table_set_splitter (reader : String) (t : KTable) : Except KepError KTable :=
  match chosen_key reader t.datarows with
  | none => Except.error KepError.emptySequence
  | some key =>
      match get_splitter key with
      | none => Except.error (KepError.unknownRowShape key)
      | some sp => Except.ok ⟨t.headers, t.datarows, t.varname, t.unit, some sp⟩

/-- Table.set_label from src/kep/csv2df/parser.py. -/
def table_set_label (mapper units : List (String × String)) (t : KTable) : KTable :=
  let r := setLabelGo mapper units t.headers none none
  ⟨r.2.2, t.datarows, r.1, r.2.1, t.splitter⟩

/-! ### Timestamps (src/kep/csv2df/parser.py)

pandas timestamps are modelled as plain calendar dates; the expression
pd.Timestamp(year, month, 1) + pd.offsets.MonthEnd() is the last
calendar day of that month, so the Gregorian month lengths are embedded
explicitly. -/

structure Date where
  year : Nat
  month : Nat
  day : Nat
deriving DecidableEq, Repr

def isLeapYear (y : Nat) : Bool :=
  (y % 4 = 0 && y % 100 ≠ 0) || y % 400 = 0

/-- Number of days of a Gregorian month. -/
def lastDayOfMonth (y m : Nat) : Nat :=
  if m = 1 ∨ m = 3 ∨ m = 5 ∨ m = 7 ∨ m = 8 ∨ m = 10 ∨ m = 12 then 31
  else if m = 4 ∨ m = 6 ∨ m = 9 ∨ m = 11 then 30
  else if isLeapYear y then 29
  else 28

/-- timestamp_month: pd.Timestamp(year, month, 1) + MonthEnd(). -/
def timestamp_month (year month : Nat) : Date :=
  ⟨year, month, lastDayOfMonth year month⟩

/-- timestamp_quarter from src/kep/csv2df/parser.py. -/
def timestamp_quarter (year quarter : Nat) : Date :=
  timestamp_month year (quarter * 3)

/-- timestamp_annual: pd.Timestamp(year, 12, 31). -/
def timestamp_annual (year : Nat) : Date := ⟨year, 12, 31⟩

/-! ### DataBlock value extraction (src/kep/csv2df/parser.py) -/

structure Datapoint where
  label : String
  value : Option Dec
  time_index : Date
  freq : Char
deriving DecidableEq, Repr

/-- A pending datapoint before numeric conversion: the raw cell, its
    timestamp and its frequency. -/
structure PointSpec where
  cell : String
  ts : Date
  freq : Char
deriving DecidableEq, Repr

/-- The yield sites of DataBlock._extract_values for one data row: the
    annual cell when truthy, then the enumerated quarterly cells, then
    the enumerated monthly cells. -/
def row_points (sp : RowSplitter) (row : List String) : List PointSpec :=
  let year := rowYear row
  let p := sp (rowData row)
  (if p.1 ≠ "" then [⟨p.1, timestamp_annual year, 'a'⟩] else []) ++
    p.2.1.enum.map (fun tq => ⟨tq.2, timestamp_quarter year (tq.1 + 1), 'q'⟩) ++
    p.2.2.enum.map (fun tm => ⟨tm.2, timestamp_month year (tm.1 + 1), 'm'⟩)

/-- DataBlock._extract_values restricted to one data row: make_datapoint
    converts each pending cell with to_float and may raise. -/
def extract_row (label : String) (sp : RowSplitter) (row : List String) :
    Except KepError (List Datapoint) :=
  mapE
    (fun p =>
      match to_float p.cell with
      | Except.error e => Except.error e
      | Except.ok v => Except.ok ⟨label, v, p.ts, p.freq⟩)
    (row_points sp row)

/-- DataBlock.extract_values: the _extract_values stream over all data
    rows with the None values filtered out. -/
def extract_values (label : String) (sp : RowSplitter)
    (datarows : List (List String)) : Except KepError (List Datapoint) :=
  match mapE (extract_row label sp) datarows with
  | Except.error e => Except.error e
  | Except.ok ls => Except.ok (ls.flatten.filter (fun d => d.value.isSome))

/-- Table.values: the empty list unless the table is_defined (label
    resolved and splitter chosen). -/
def tableValues (t : KTable) : Except KepError (List Datapoint) :=
  match table_label t, t.splitter with
  | some l, some sp => extract_values l sp t.datarows
  | _, _ => Except.ok []

/-! ### Parsing definition (src/kep/parsing_definition/parsing_definition.py)

DefinitionFactory: mapper, required_labels, units, reader (boundaries
are consumed upstream of evaluate_assignment and are kept out of the
record). -/

structure Pdef where
  mapper : List (String × String)
  units : List (String × String)
  required_labels : List String
  reader : String

/-- A fresh Table as built inside split_to_tables: header flags False,
    no varname, unit or splitter yet. -/
def mkKTable (tr : TableRaw) : KTable :=
  ⟨tr.headers.map (fun c => ⟨c, false⟩), tr.datarows, none, none, none⟩

/-! ### parse_tables (src/kep/csv2df/parser.py)

The second loop iterates zip(tables, tables[1:]) over the in-place
mutated list, so an inherited varname propagates: the recursion passes
the already-updated predecessor along. -/

/-- One step of the trailing-units loop: copy varname from the
    already-processed preceding table when the current table has none
    and has no unknown header lines. -/
def carryStep (prev t : KTable) : KTable :=
  if t.varname = none ∧ has_unknown_lines t = false then
    ⟨t.headers, t.datarows, prev.varname, t.unit, t.splitter⟩
  else t

/-- The trailing-units loop body: *prev* is the already-processed
    immediately preceding table; the updated table is the predecessor of
    the next iteration, as the in-place mutation makes it in Python. -/
def carryGo (prev : KTable) : List KTable → List KTable
  | [] => []
  | t :: rest => carryStep prev t :: carryGo (carryStep prev t) rest

/-- The carry-forward pass of parse_tables. -/
def carry_varname : List KTable → List KTable
  | [] => []
  | t :: rest => t :: carryGo t rest

/-- parse_tables: assign splitter and label to every table, then carry
    varname forward onto fully parsed tables that lack one. -/
def parse_tables (pdef : Pdef) (trs : List TableRaw) :
    Except KepError (List KTable) :=
  match
      mapE
        (fun tr =>
          match table_set_splitter pdef.reader (mkKTable tr) with
          | Except.error e => Except.error e
          | Except.ok t => Except.ok (table_set_label pdef.mapper pdef.units t))
        trs with
  | Except.error e => Except.error e
  | Except.ok ts => Except.ok (carry_varname ts)

/-! ### verify_tables and evaluate_assignment (src/kep/csv2df/parser.py) -/

/-- verify_tables: the set difference between the required labels and
    the labels of the parsed tables; Python forms the difference on
    sets, so the filtered list is deduplicated. -/
def missed_labels (ts : List KTable) (required : List String) : List String :=
  (required.filter (fun l => !(ts.any (fun t => table_label t = some l)))).dedup

def verify_tables (ts : List KTable) (required : List String) :
    Except KepError Unit :=
  if missed_labels ts required = [] then Except.ok ()
  else Except.error (KepError.missedLabels (missed_labels ts required))

/-- The required-label filter of evaluate_assignment. -/
def keep_required (pdef : Pdef) (ts : List KTable) : List KTable :=
  ts.filter (fun t =>
    match table_label t with
    | some l => pdef.required_labels.contains l
    | none => false)

/-- The final comprehension of evaluate_assignment: all values of the
    kept tables, in table order. -/
def emit_values (ts : List KTable) : Except KepError (List Datapoint) :=
  match mapE tableValues ts with
  | Except.error e => Except.error e
  | Except.ok vs => Except.ok vs.flatten

/-- evaluate_assignment after a successful parse stage: verify, filter,
    emit. -/
def evaluate_verified (pdef : Pdef) (ts : List KTable) :
    Except KepError (List Datapoint) :=
  match verify_tables ts pdef.required_labels with
  | Except.error e => Except.error e
  | Except.ok _ => emit_values (keep_required pdef ts)

/-- evaluate_assignment from src/kep/csv2df/parser.py: segment, parse,
    verify, keep the tables with required labels, emit their values. -/
def evaluate_assignment (rows : List (List String)) (pdef : Pdef) :
    Except KepError (List Datapoint) :=
  match parse_tables pdef (split_to_tables rows) with
  | Except.error e => Except.error e
  | Except.ok ts => evaluate_verified pdef ts

/-! ### The ordered unit mapping table (UNITS, src/kep/spec.py) -/

/-- UNITS from src/kep/spec.py, in registration order. -/
def UNITS : List (String × String) :=
  [("млрд.долларов", "bln_usd"),
   ("млрд. долларов", "bln_usd"),
   ("млрд, долларов", "bln_usd"),
   ("млрд.рублей", "bln_rub"),
   ("млрд. рублей", "bln_rub"),
   ("рублей / rubles", "rub"),
   ("млн.рублей", "mln_rub"),
   ("Индекс физического объема произведенного ВВП, в %", "yoy"),
   ("в % к декабрю предыдущего года", "ytd"),
   ("в % к предыдущему месяцу", "rog"),
   ("в % к предыдущему периоду", "rog"),
   ("% к концу предыдущего периода", "rog"),
   ("период с начала отчетного года в % к соответствующему периоду предыдущего года", "ytd"),
   ("в % к соответствующему периоду предыдущего года", "yoy"),
   ("в % к соответствующему месяцу предыдущего года", "yoy"),
   ("отчетный месяц в % к предыдущему месяцу", "rog"),
   ("отчетный месяц в % к соответствующему месяцу предыдущего года", "yoy"),
   ("период с начала отчетного года", "ytd"),
   ("%", "pct"),
   ("в % к ВВП", "gdp_percent"),
   ("продукты питания", "rog"),
   ("алкогольные напитки", "rog"),
   ("непродовольственные товары", "rog"),
   ("непродовольст- венные товары", "rog"),
   ("услуги", "rog")]

/-! ### Boundary resolution, pipeline version
    (get_boundaries, src/kep/pipeline/reader/boundaries.py) -/

inductive PyErr where
  | valueError (msg : String)
  | attributeError (attr : String)
deriving DecidableEq, Repr

/-- Boundary.find: the line is found when some row starts with it; the
    Row.startswith of the absent pipeline row model is modelled from the
    spec, section 4.2: the row text, trimmed, begins with the marker. -/
def bFind (line : String) (rows : List String) : Bool :=
  rows.any (fun r => takesLead line.data (trimChars r.data))

/-- Boundary.__str__: shorten keeps the first ten characters. -/
def shorten (s : String) : String :=
  "<" ++ String.mk (s.data.take 10) ++ "...>"

/-- Boundary.__str__ of boundaries.py. -/
def boundary_str (nm : String) (found : Bool) (line : String) : String :=
  nm ++ " line " ++ (if found then "found:  " else "NOT found:") ++ " " ++
    shorten line

/-- The join of message lines with a newline, as Python joins them. -/
def joinLines : List String → String
  | [] => ""
  | [x] => x
  | x :: xs => x ++ "\n" ++ joinLines xs

/-- The loop of get_boundaries: return the first matched pair; collect
    a per-pair diagnostic line for start and end otherwise. -/
def gbGo (rows : List String) :
    List (String × String) → List String → Except PyErr (String × String)
  | [], acc => Except.error (PyErr.valueError (joinLines acc))
  | m :: rest, acc =>
      let sf := bFind m.1 rows
      let ef := bFind m.2 rows
      if sf && ef then Except.ok (m.1, m.2)
      else
        gbGo rows rest
          (acc ++ [boundary_str "Start" sf m.1, boundary_str "End" ef m.2])

/-- get_boundaries from src/kep/pipeline/reader/boundaries.py. -/
def get_boundaries (ms : List (String × String)) (rows : List String) :
    Except PyErr (String × String) :=
  gbGo rows ms ["Start or end boundary not found:"]

/-! ### Boundary resolution, Scope version (src/kep/spec.py)

Scope.get_bounds iterates over the marker pairs with
for i, marker in enumerate(self.__markers), but the variable ix it
indexes the result with is initialised to False and never reassigned,
so on success it returns self.__markers[False], that is the first
pair, whatever pair matched.  The embedding reproduces this; the
headD default below is unreachable because a match implies the list is
non-empty. -/

/-- str.startswith of a plain Python string row, as spec.py uses it. -/
def sFind (line : String) (rows : List String) : Bool :=
  rows.any (fun r => takesLead line.data r.data)

/-- Scope.__error_message reads self.markers, but the constructor only
    defines the name-mangled attribute _Scope__markers, so every call
    raises AttributeError before any diagnostic text is assembled. -/
def scope_error_message (_rows : List String) : Except PyErr String :=
  Except.error (PyErr.attributeError "markers")

/-- The loop of Scope.get_bounds; *allms* is self.__markers, the second
    list argument the pairs still to try. -/
def get_bounds_go (allms : List (String × String)) (rows : List String) :
    List (String × String) → Except PyErr (String × String)
  | [] =>
      match scope_error_message rows with
      | Except.ok msg => Except.error (PyErr.valueError msg)
      | Except.error e => Except.error e
  | m :: rest =>
      if sFind m.1 rows && sFind m.2 rows then
        Except.ok ((allms.headD m).1, (allms.headD m).2)
      else get_bounds_go allms rows rest

/-- Scope.get_bounds from src/kep/spec.py, with its indexing slip kept. -/
def get_bounds (ms : List (String × String)) (rows : List String) :
    Except PyErr (String × String) :=
  get_bounds_go ms rows ms

/-! ### Cell classification and witness inputs -/

/-- A cell on which the Numeric Cell Parser raises MalformedNumber. -/
def cell_malformed (c : String) : Bool :=
  match to_float c with
  | Except.error _ => true
  | Except.ok _ => false

/-- A cell the Numeric Cell Parser reads as absent (no value). -/
def cell_absent (c : String) : Bool :=
  match to_float c with
  | Except.ok none => true
  | _ => false

/-- The parsed value of a non-raising cell. -/
def okValue (c : String) : Option Dec :=
  match to_float c with
  | Except.ok v => v
  | Except.error _ => none

/-- The header text of the C8 witness: the year-to-date phrase of UNITS
    that contains the year-on-year phrase as a proper substring. -/
def ytdPhrase : String :=
  "период с начала отчетного года в % к соответствующему периоду предыдущего года"

/-- The C5 witness tables: a resolved table followed by a unit-only
    sub-table whose single header row was parsed. -/
def c5prev : KTable :=
  ⟨[⟨["Оборот"], true⟩], [], some "GDP", some "bln_rub", none⟩

def c5cur : KTable :=
  ⟨[⟨["в процентах"], true⟩], [], none, some "yoy", none⟩

def c5out : KTable :=
  ⟨[⟨["в процентах"], true⟩], [], some "GDP", some "yoy", none⟩

/-- The C1 witness document: one table whose header resolves to
    GDP_bln_rub (the missing-required-label scenario of the spec). -/
def c1rows : List (List String) :=
  [["Oбъем ВВП, млрд.рублей"],
   ["1999", "4823", "901", "1102", "1373", "1447"]]

/-- The C1 witness definition: it requires GDP_yoy, absent from the
    document. -/
def c1pdef : Pdef :=
  ⟨[("Oбъем ВВП", "GDP")], UNITS, ["GDP_yoy"], ""⟩

/-- The parsed tables of the C1 witness document. -/
def c1ts : List KTable :=
  [⟨[⟨["Oбъем ВВП, млрд.рублей"], true⟩],
    [["1999", "4823", "901", "1102", "1373", "1447"]],
    some "GDP", some "bln_rub", some splitter6⟩]

/-- The C6 witness data row, the GDP scenario row of the spec. -/
def c6row : List String := ["1999", "4823", "901", "1102", "1373", "1447"]

/-- The datapoints the C6 witness row yields under splitter6. -/
def c6dps : List Datapoint :=
  [⟨"GDP_bln_rub", some ⟨4823, 0⟩, ⟨1999, 12, 31⟩, 'a'⟩,
   ⟨"GDP_bln_rub", some ⟨901, 0⟩, ⟨1999, 3, 31⟩, 'q'⟩,
   ⟨"GDP_bln_rub", some ⟨1102, 0⟩, ⟨1999, 6, 30⟩, 'q'⟩,
   ⟨"GDP_bln_rub", some ⟨1373, 0⟩, ⟨1999, 9, 30⟩, 'q'⟩,
   ⟨"GDP_bln_rub", some ⟨1447, 0⟩, ⟨1999, 12, 31⟩, 'q'⟩]

/-- The C7 witness data row: its first non-year cell is malformed. -/
def c7row : List String := ["1999", "n/a?", "1", "2", "3", "4"]

/-! ## Helper lemmas -/

theorem mapE_ok_mem {f : α → Except KepError β} :
    ∀ {xs : List α} {ys : List β}, mapE f xs = Except.ok ys →
      ∀ y ∈ ys, ∃ x ∈ xs, f x = Except.ok y := by
  intro xs
  induction xs with
  | nil =>
      intro ys h y hy
      rw [mapE] at h
      cases h
      cases hy
  | cons x xs ih =>
      intro ys h y hy
      rw [mapE] at h
      cases hfx : f x with
      | error e => rw [hfx] at h; cases h
      | ok y0 =>
          rw [hfx] at h
          cases hrec : mapE f xs with
          | error e => rw [hrec] at h; cases h
          | ok ys0 =>
              rw [hrec] at h
              cases h
              rcases List.mem_cons.mp hy with rfl | hy
              · exact ⟨x, List.mem_cons_self x xs, hfx⟩
              · rcases ih hrec y hy with ⟨x', hx', hfx'⟩
                exact ⟨x', List.mem_cons_of_mem x hx', hfx'⟩

theorem mapE_error_mem {f : α → Except KepError β} :
    ∀ {xs : List α} {e : KepError}, mapE f xs = Except.error e →
      ∃ x ∈ xs, f x = Except.error e := by
  intro xs
  induction xs with
  | nil => intro e h; rw [mapE] at h; cases h
  | cons x xs ih =>
      intro e h
      rw [mapE] at h
      cases hfx : f x with
      | error e' =>
          rw [hfx] at h
          cases h
          exact ⟨x, List.mem_cons_self x xs, hfx⟩
      | ok y0 =>
          rw [hfx] at h
          cases hrec : mapE f xs with
          | error e' =>
              rw [hrec] at h
              cases h
              rcases ih hrec with ⟨x', hx', hfx'⟩
              exact ⟨x', List.mem_cons_of_mem x hx', hfx'⟩
          | ok ys0 => rw [hrec] at h; cases h

theorem mapE_error_of_exists {f : α → Except KepError β} :
    ∀ {xs : List α}, (∃ x ∈ xs, ∃ e, f x = Except.error e) →
      ∃ x ∈ xs, ∃ e, f x = Except.error e ∧ mapE f xs = Except.error e := by
  intro xs
  induction xs with
  | nil => rintro ⟨x, hx, _⟩; cases hx
  | cons x xs ih =>
      rintro ⟨x0, hx0, e0, hfx0⟩
      cases hfx : f x with
      | error e =>
          refine ⟨x, List.mem_cons_self x xs, e, hfx, ?_⟩
          rw [mapE, hfx]
      | ok y =>
          have hxs : ∃ x ∈ xs, ∃ e, f x = Except.error e := by
            rcases List.mem_cons.mp hx0 with rfl | hmem
            · rw [hfx] at hfx0; cases hfx0
            · exact ⟨x0, hmem, e0, hfx0⟩
          rcases ih hxs with ⟨x', hx', e', hfx', hmap⟩
          refine ⟨x', List.mem_cons_of_mem x hx', e', hfx', ?_⟩
          rw [mapE, hfx, hmap]

theorem mapE_ok_of_map {f : α → Except KepError β} {g : α → β} :
    ∀ {xs : List α}, (∀ x ∈ xs, f x = Except.ok (g x)) →
      mapE f xs = Except.ok (xs.map g) := by
  intro xs
  induction xs with
  | nil => intro _; rw [mapE]; rfl
  | cons x xs ih =>
      intro h
      rw [mapE, h x (List.mem_cons_self x xs),
        ih (fun x' hx' => h x' (List.mem_cons_of_mem x hx'))]
      rfl

theorem mapE_ok_imp_map {f : α → Except KepError β} {g : α → β}
    (hfg : ∀ x y, f x = Except.ok y → y = g x) :
    ∀ {xs : List α} {ys : List β}, mapE f xs = Except.ok ys → ys = xs.map g := by
  intro xs
  induction xs with
  | nil =>
      intro ys h
      rw [mapE] at h
      cases h
      rfl
  | cons x xs ih =>
      intro ys h
      rw [mapE] at h
      cases hfx : f x with
      | error e => rw [hfx] at h; cases h
      | ok y =>
          rw [hfx] at h
          cases hrec : mapE f xs with
          | error e => rw [hrec] at h; cases h
          | ok ys0 =>
              rw [hrec] at h
              cases h
              rw [List.map_cons, ← hfg x y hfx, ← ih hrec]

theorem le_foldl_max : ∀ (ns : List Nat) (n : Nat), n ≤ ns.foldl max n := by
  intro ns
  induction ns with
  | nil => intro n; exact Nat.le_refl n
  | cons m ms ih =>
      intro n
      exact Nat.le_trans (Nat.le_max_left n m) (ih (max n m))

theorem mem_le_foldl_max :
    ∀ (ns : List Nat) (n m : Nat), m ∈ ns → m ≤ ns.foldl max n := by
  intro ns
  induction ns with
  | nil => intro n m hm; cases hm
  | cons k ks ih =>
      intro n m hm
      rcases List.mem_cons.mp hm with rfl | hm
      · exact Nat.le_trans (Nat.le_max_right n m) (le_foldl_max ks (max n m))
      · exact ih (max n k) m hm

theorem foldl_max_mem :
    ∀ (ns : List Nat) (n : Nat), ns.foldl max n = n ∨ ns.foldl max n ∈ ns := by
  intro ns
  induction ns with
  | nil => intro n; exact Or.inl rfl
  | cons k ks ih =>
      intro n
      rcases ih (max n k) with h | h
      · rcases max_choice n k with hm | hm
        · exact Or.inl (by rw [List.foldl_cons, h, hm])
        · exact Or.inr (by rw [List.foldl_cons, h, hm]; exact List.mem_cons_self k ks)
      · exact Or.inr (List.mem_cons_of_mem k h)

theorem mem_enumFrom_lt {α : Type} :
    ∀ (l : List α) (n i : Nat) (c : α), (i, c) ∈ l.enumFrom n → i < n + l.length := by
  intro l
  induction l with
  | nil => intro n i c h; cases h
  | cons a l ih =>
      intro n i c h
      rcases List.mem_cons.mp h with heq | hmem
      · cases heq
        simp only [List.length_cons]
        omega
      · have := ih (n + 1) i c hmem
        simp only [List.length_cons]
        omega

theorem mem_enum_lt {α : Type} (l : List α) (i : Nat) (c : α)
    (h : (i, c) ∈ l.enum) : i < l.length := by
  have := mem_enumFrom_lt l 0 i c h
  omega

/-! ## Claim theorems -/

/-! ### C2 — the segmenter invariant -/

theorem splitGo_datarows_ne (rest : List (List String)) :
    ∀ headers datarows state,
      (state = PState.DATA → datarows ≠ []) →
      ∀ t ∈ splitGo headers datarows state rest, t.datarows ≠ [] := by
  induction rest with
  | nil =>
      intro headers datarows state hinv t ht
      rw [splitGo] at ht
      by_cases h : headers ≠ [] ∧ datarows ≠ []
      · rw [if_pos h] at ht
        rcases List.mem_singleton.mp ht with rfl
        exact h.2
      · rw [if_neg h] at ht
        cases ht
  | cons r rest ih =>
      intro headers datarows state hinv t ht
      rw [splitGo] at ht
      by_cases hd : is_datarow r = true
      · rw [if_pos hd] at ht
        exact ih _ _ _ (fun _ => by simp) t ht
      · rw [if_neg hd] at ht
        by_cases hs : state = PState.DATA
        · rw [if_pos hs] at ht
          rcases List.mem_cons.mp ht with rfl | ht
          · exact hinv hs
          · exact ih _ _ _ (fun h => absurd h (by decide)) t ht
        · rw [if_neg hs] at ht
          exact ih _ _ _ (fun h => absurd h (by decide)) t ht

theorem splitGo_headers_ne (rest : List (List String)) :
    ∀ headers datarows state, headers ≠ [] →
      ∀ t ∈ splitGo headers datarows state rest, t.headers ≠ [] := by
  induction rest with
  | nil =>
      intro headers datarows state hne t ht
      rw [splitGo] at ht
      by_cases h : headers ≠ [] ∧ datarows ≠ []
      · rw [if_pos h] at ht
        rcases List.mem_singleton.mp ht with rfl
        exact h.1
      · rw [if_neg h] at ht
        cases ht
  | cons r rest ih =>
      intro headers datarows state hne t ht
      rw [splitGo] at ht
      by_cases hd : is_datarow r = true
      · rw [if_pos hd] at ht
        exact ih _ _ _ hne t ht
      · rw [if_neg hd] at ht
        by_cases hs : state = PState.DATA
        · rw [if_pos hs] at ht
          rcases List.mem_cons.mp ht with rfl | ht
          · exact hne
          · exact ih _ _ _ (by simp) t ht
        · rw [if_neg hs] at ht
          exact ih _ _ _ (by simp [hne]) t ht

/-- C2, counterexample: on a row sequence that begins with a data row,
    split_to_tables emits a Table whose header-row list is empty, so the
    claim that every emitted Table has at least one header row is false
    on the code. -/
theorem split_to_tables_emits_headerless_table :
    split_to_tables [["2000", "1"], ["x"]] =
        [⟨[], [["2000", "1"]]⟩] ∧
      ∃ t ∈ split_to_tables [["2000", "1"], ["x"]], t.headers = [] := by
  constructor
  · decide
  · exact ⟨⟨[], [["2000", "1"]]⟩, by decide, rfl⟩

/-- C2, amended: every Table emitted by split_to_tables has at least one
    data row (in particular a trailing run of header rows yields no
    Table), and provided the row sequence does not begin with a data row
    every emitted Table also has at least one header row. -/
theorem split_to_tables_table_shape (rows : List (List String)) :
    (∀ t ∈ split_to_tables rows, t.datarows ≠ []) ∧
      ((∀ first ∈ rows.head?, is_datarow first = false) →
        ∀ t ∈ split_to_tables rows, t.headers ≠ []) := by
  constructor
  · exact splitGo_datarows_ne rows [] [] PState.INIT (fun h => absurd h (by decide))
  · intro hfirst
    cases rows with
    | nil =>
        intro t ht
        rw [split_to_tables, splitGo] at ht
        rw [if_neg (by simp)] at ht
        cases ht
    | cons r rs =>
        have hfd : is_datarow r = false := hfirst r rfl
        intro t ht
        rw [split_to_tables, splitGo] at ht
        rw [if_neg (by simp [hfd])] at ht
        rw [if_neg (by decide)] at ht
        exact splitGo_headers_ne rs [r] [] PState.HEADERS (by simp) t ht

/-- C2, witness for the amended claim at a concrete document. -/
theorem split_to_tables_table_shape_witness :
    (∀ t ∈ split_to_tables [["h"], ["2000", "1"]], t.datarows ≠ []) ∧
      ∀ t ∈ split_to_tables [["h"], ["2000", "1"]], t.headers ≠ [] :=
  ⟨(split_to_tables_table_shape [["h"], ["2000", "1"]]).1,
   (split_to_tables_table_shape [["h"], ["2000", "1"]]).2 (by decide)⟩

/-! ### C3 and C4 — boundary resolution -/

/-- C3: with two alternative marker pairs of which only the second is
    present among the rows, Scope.get_bounds (src/kep/spec.py) returns
    the FIRST pair's literal text, because the result index ix is
    initialised to False (index 0) and never set to the matching index;
    the pipeline implementation get_boundaries returns the second
    pair's text as the claim states. -/
theorem get_bounds_returns_first_pair_on_drift :
    get_bounds [("START-ONE", "END-ONE"), ("START-TWO", "END-TWO")]
        ["START-TWO intro", "data", "END-TWO tail"] =
      Except.ok ("START-ONE", "END-ONE") ∧
    get_boundaries [("START-ONE", "END-ONE"), ("START-TWO", "END-TWO")]
        ["START-TWO intro", "data", "END-TWO tail"] =
      Except.ok ("START-TWO", "END-TWO") := by
  constructor
  · rfl
  · rfl

/-- C4: when no marker pair matches, Scope.get_bounds raises
    AttributeError (its __error_message reads the undefined attribute
    self.markers) instead of the diagnostic the claim describes, while
    the pipeline get_boundaries raises ValueError whose message lists
    every candidate pair with the found status of each side. -/
theorem scope_error_path_no_diagnostic :
    get_bounds [("alpha-start", "alpha-end"), ("beta-start", "beta-end")]
        ["gamma"] =
      Except.error (PyErr.attributeError "markers") ∧
    get_boundaries [("alpha-start", "alpha-end"), ("beta-start", "beta-end")]
        ["gamma"] =
      Except.error (PyErr.valueError
        ("Start or end boundary not found:\nStart line NOT found: <alpha-star...>\nEnd line NOT found: <alpha-end...>\nStart line NOT found: <beta-start...>\nEnd line NOT found: <beta-end...>")) := by
  constructor
  · rfl
  · rfl

/-! ### C10 — values of an undefined table -/

/-- C10: a Table whose label is unresolved (no variable name or no
    unit) or whose splitter is unset yields the empty value list, with
    no error; tableValues is a pure function of the table, so the table
    itself is unchanged by the query. -/
theorem tableValues_undefined_empty (t : KTable)
    (h : t.varname = none ∨ t.unit = none ∨ t.splitter = none) :
    tableValues t = Except.ok [] := by
  rcases h with h | h | h
  · have hl : table_label t = none := by
      rw [table_label, h]
      cases t.unit <;> rfl
    rw [tableValues, hl]
  · have hl : table_label t = none := by
      rw [table_label, h]
      cases t.varname <;> rfl
    rw [tableValues, hl]
  · rw [tableValues, h]
    cases table_label t <;> rfl

/-! ### C9 — splitter key selection -/

/-- C9: the splitter key is the definition's explicit reader key when
    that key is non-empty, and otherwise the table's own data-row cell
    count, which is the maximum cell count over the data rows. -/
theorem splitter_key_selection (reader : String) (datarows : List (List String))
    (h : datarows ≠ []) :
    (reader ≠ "" → chosen_key reader datarows = some (SKey.name reader)) ∧
    (reader = "" → ∃ k, chosen_key reader datarows = some (SKey.cols k) ∧
      (∀ r ∈ datarows, r.length ≤ k) ∧ ∃ r ∈ datarows, r.length = k) := by
  constructor
  · intro hr
    rw [chosen_key, if_pos hr]
  · intro hr
    subst hr
    rw [chosen_key, if_neg (by simp)]
    cases datarows with
    | nil => exact absurd rfl h
    | cons d ds =>
        refine ⟨(ds.map List.length).foldl max d.length, rfl, ?_, ?_⟩
        · intro r hr
          rcases List.mem_cons.mp hr with rfl | hr
          · exact le_foldl_max _ _
          · exact mem_le_foldl_max _ _ _ (List.mem_map_of_mem List.length hr)
        · rcases foldl_max_mem (ds.map List.length) d.length with hm | hm
          · exact ⟨d, List.mem_cons_self d ds, hm.symm⟩
          · rcases List.mem_map.mp hm with ⟨r, hrm, hrl⟩
            exact ⟨r, List.mem_cons_of_mem d hrm, hrl⟩

/-- C9, witness with an empty reader key on a two-row table. -/
theorem splitter_key_selection_witness :
    ([["a", "b"], ["c"]] : List (List String)) ≠ [] ∧
    (("" : String) = "" → ∃ k, chosen_key "" [["a", "b"], ["c"]] = some (SKey.cols k) ∧
      (∀ r ∈ ([["a", "b"], ["c"]] : List (List String)), r.length ≤ k) ∧
      ∃ r ∈ ([["a", "b"], ["c"]] : List (List String)), r.length = k) :=
  ⟨by decide, (splitter_key_selection "" [["a", "b"], ["c"]] (by decide)).2⟩

/-! ### C8 — ordered unit resolution -/

/-- C8: the unit mapping is tried in registration order and the first
    matching entry wins; hence when two entries both match a header
    text (as when one phrase is a substring of the other), resolution
    yields the unit of the earlier-registered entry. -/
theorem unit_resolution_order (units : List (String × String)) (text : String) :
    ∀ (i j : Nat) (hi : i < units.length) (hj : j < units.length), i < j →
      occursIn (units.get ⟨i, hi⟩).1 text = true →
      occursIn (units.get ⟨j, hj⟩).1 text = true →
      (∀ p ∈ units.take i, occursIn p.1 text = false) →
      get_unit units text = some (units.get ⟨i, hi⟩).2 := by
  induction units with
  | nil => intro i j hi; exact absurd hi (by simp)
  | cons u rest ih =>
      intro i j hi hj hij hmi hmj hfirst
      cases i with
      | zero =>
          simp only [get_unit, List.find?]
          simp only [List.get] at hmi
          rw [hmi]
          rfl
      | succ k =>
          have hu : occursIn u.1 text = false := by
            refine hfirst u ?_
            rw [List.take_succ_cons]
            exact List.mem_cons_self u _
          cases j with
          | zero => omega
          | succ j' =>
              have hred : get_unit (u :: rest) text = get_unit rest text := by
                simp only [get_unit, List.find?, hu]
              rw [hred]
              have hik : k < rest.length := by
                simp only [List.length_cons] at hi
                omega
              have hjk : j' < rest.length := by
                simp only [List.length_cons] at hj
                omega
              exact ih k j' hik hjk (by omega) hmi hmj
                (fun p hp => hfirst p (by
                  rw [List.take_succ_cons]
                  exact List.mem_cons_of_mem u hp))

/-- C8, witness on the real UNITS table: both the ytd entry (position
    12) and the yoy entry (position 13, a substring of the former) match
    the text, and resolution yields ytd, the earlier entry. -/
theorem unit_resolution_order_witness :
    occursIn "в % к соответствующему периоду предыдущего года" ytdPhrase = true ∧
    get_unit UNITS ytdPhrase = some "ytd" := by
  constructor
  · decide
  · exact unit_resolution_order UNITS ytdPhrase 12 13 (by decide) (by decide)
      (by decide) (by decide) (by decide) (by decide)

/-! ### C5 — varname carry-forward -/

theorem carryStep_unit (prev t : KTable) : (carryStep prev t).unit = t.unit := by
  rw [carryStep]
  split <;> rfl

theorem carry_aux (rest : List KTable) :
    ∀ (prev : KTable) (i : Nat) (t t' p : KTable),
      rest[i]? = some t →
      (prev :: carryGo prev rest)[i + 1]? = some t' →
      (prev :: carryGo prev rest)[i]? = some p →
      ((t.varname = none ∧ has_unknown_lines t = false) → t'.varname = p.varname) ∧
      ((t.varname = none ∧ has_unknown_lines t = true) → t'.varname = none) ∧
      t'.unit = t.unit := by
  induction rest with
  | nil =>
      intro prev i t t' p ht
      rw [List.getElem?_nil] at ht
      cases ht
  | cons t0 rest ih =>
      intro prev i t t' p ht hct hcp
      simp only [carryGo] at hct hcp
      cases i with
      | zero =>
          rw [List.getElem?_cons_zero] at ht hcp
          rw [List.getElem?_cons_succ, List.getElem?_cons_zero] at hct
          injection ht with ht
          injection hct with hct
          injection hcp with hcp
          subst ht hct hcp
          refine ⟨?_, ?_, carryStep_unit prev t0⟩
          · intro hcond
            rw [carryStep, if_pos hcond]
          · intro hcond
            rw [carryStep, if_neg (by
              rintro ⟨-, hfalse⟩
              rw [hcond.2] at hfalse
              cases hfalse)]
            exact hcond.1
      | succ k =>
          rw [List.getElem?_cons_succ] at ht
          rw [List.getElem?_cons_succ] at hct hcp
          exact ih (carryStep prev t0) k t t' p ht hct hcp

/-- C5: in the carry-forward pass, a table with no resolved varname and
    no unknown header lines receives the varname of the immediately
    preceding (already updated) table; a table with an unknown header
    line keeps its varname unresolved; units are never carried. -/
theorem parse_carry_forward (ts : List KTable) (i : Nat) (t t' p : KTable)
    (ht : ts[i + 1]? = some t)
    (hct : (carry_varname ts)[i + 1]? = some t')
    (hcp : (carry_varname ts)[i]? = some p) :
    ((t.varname = none ∧ has_unknown_lines t = false) → t'.varname = p.varname) ∧
    ((t.varname = none ∧ has_unknown_lines t = true) → t'.varname = none) ∧
    t'.unit = t.unit := by
  cases ts with
  | nil =>
      rw [List.getElem?_nil] at ht
      cases ht
  | cons t0 rest =>
      rw [carry_varname] at hct hcp
      rw [List.getElem?_cons_succ] at ht
      exact carry_aux rest t0 i t t' p ht hct hcp

/-- C5, witness: the trailing unit-only table inherits GDP and keeps
    its own unit. -/
theorem parse_carry_forward_witness :
    (c5cur.varname = none ∧ has_unknown_lines c5cur = false) ∧
    c5out.varname = c5prev.varname ∧ c5out.unit = c5cur.unit :=
  have h := parse_carry_forward [c5prev, c5cur] 0 c5cur c5out c5prev rfl rfl rfl
  ⟨⟨rfl, rfl⟩, h.1 ⟨rfl, rfl⟩, h.2.2⟩

/-! ### C6 — observation timestamps are period ends -/

theorem extract_row_ok_eq {label : String} {sp : RowSplitter} {row : List String}
    {dps : List Datapoint} (hok : extract_row label sp row = Except.ok dps) :
    dps = (row_points sp row).map
      (fun p => ⟨label, okValue p.cell, p.ts, p.freq⟩) := by
  rw [extract_row] at hok
  refine mapE_ok_imp_map ?_ hok
  intro p dp hfp
  cases htf : to_float p.cell with
  | error e =>
      simp only [htf] at hfp
      cases hfp
  | ok v =>
      simp only [htf] at hfp
      injection hfp with hfp
      subst hfp
      simp only [okValue, htf]

theorem row_points_annual (sp : RowSplitter) (row : List String)
    (hcond : (sp (rowData row)).1 ≠ "") :
    (row_points sp row)[0]? =
      some ⟨(sp (rowData row)).1, timestamp_annual (rowYear row), 'a'⟩ := by
  simp only [row_points]
  rw [if_pos hcond]
  simp only [List.cons_append, List.nil_append, List.getElem?_cons_zero]

theorem row_points_quarter (sp : RowSplitter) (row : List String)
    (i : Nat) (cell : String)
    (hq : ((sp (rowData row)).2.1)[i]? = some cell) :
    (row_points sp row)[(if (sp (rowData row)).1 ≠ "" then 1 else 0) + i]? =
      some ⟨cell, timestamp_quarter (rowYear row) (i + 1), 'q'⟩ := by
  have hlt : i < ((sp (rowData row)).2.1).length := by
    by_contra hge
    push_neg at hge
    rw [List.getElem?_eq_none hge] at hq
    cases hq
  simp only [row_points]
  by_cases hcond : (sp (rowData row)).1 ≠ ""
  · rw [if_pos hcond, if_pos hcond]
    simp only [List.cons_append, List.nil_append]
    rw [Nat.add_comm 1 i, List.getElem?_cons_succ]
    rw [List.getElem?_append_left
      (by simp only [List.length_map, List.enum_length]; omega)]
    rw [List.getElem?_map, List.getElem?_enum, hq]
    rfl
  · rw [if_neg hcond, if_neg hcond]
    simp only [List.nil_append, Nat.zero_add]
    rw [List.getElem?_append_left
      (by simp only [List.length_map, List.enum_length]; omega)]
    rw [List.getElem?_map, List.getElem?_enum, hq]
    rfl

theorem row_points_month (sp : RowSplitter) (row : List String)
    (i : Nat) (cell : String)
    (hm : ((sp (rowData row)).2.2)[i]? = some cell) :
    (row_points sp row)[(if (sp (rowData row)).1 ≠ "" then 1 else 0) +
        ((sp (rowData row)).2.1).length + i]? =
      some ⟨cell, timestamp_month (rowYear row) (i + 1), 'm'⟩ := by
  simp only [row_points]
  by_cases hcond : (sp (rowData row)).1 ≠ ""
  · rw [if_pos hcond, if_pos hcond]
    simp only [List.cons_append, List.nil_append]
    have hidx : 1 + ((sp (rowData row)).2.1).length + i =
        ((sp (rowData row)).2.1).length + i + 1 := by omega
    rw [hidx, List.getElem?_cons_succ]
    rw [List.getElem?_append_right
      (by simp only [List.length_map, List.enum_length]; omega)]
    simp only [List.length_map, List.enum_length, Nat.add_sub_cancel_left]
    rw [List.getElem?_map, List.getElem?_enum, hm]
    rfl
  · rw [if_neg hcond, if_neg hcond]
    simp only [List.nil_append, Nat.zero_add]
    rw [List.getElem?_append_right
      (by simp only [List.length_map, List.enum_length]; omega)]
    simp only [List.length_map, List.enum_length, Nat.add_sub_cancel_left]
    rw [List.getElem?_map, List.getElem?_enum, hm]
    rfl

/-- C6: every observation a data row yields has the last calendar day
    of its period as timestamp, and each value is bound to its own
    period: the annual value (first position when present) gets
    December 31; the q-th quarterly value gets the last day of month
    3q; the m-th monthly value gets the last day of month m. -/
theorem observation_timestamps_period_end (label : String) (sp : RowSplitter)
    (row : List String) (dps : List Datapoint)
    (hq4 : ((sp (rowData row)).2.1).length ≤ 4)
    (hm12 : ((sp (rowData row)).2.2).length ≤ 12)
    (hok : extract_row label sp row = Except.ok dps) :
    (∀ dp ∈ dps,
      (dp.freq = 'a' ∧ dp.time_index = timestamp_annual (rowYear row) ∧
        dp.time_index.day = lastDayOfMonth (rowYear row) 12) ∨
      (dp.freq = 'q' ∧ ∃ q, 1 ≤ q ∧ q ≤ 4 ∧
        dp.time_index =
          Date.mk (rowYear row) (3 * q) (lastDayOfMonth (rowYear row) (3 * q))) ∨
      (dp.freq = 'm' ∧ ∃ m, 1 ≤ m ∧ m ≤ 12 ∧
        dp.time_index =
          Date.mk (rowYear row) m (lastDayOfMonth (rowYear row) m))) ∧
    ((sp (rowData row)).1 ≠ "" →
      dps[0]? = some ⟨label, okValue (sp (rowData row)).1,
        timestamp_annual (rowYear row), 'a'⟩) ∧
    (∀ q cell, 1 ≤ q → ((sp (rowData row)).2.1)[q - 1]? = some cell →
      dps[(if (sp (rowData row)).1 ≠ "" then 1 else 0) + (q - 1)]? =
        some ⟨label, okValue cell,
          Date.mk (rowYear row) (3 * q) (lastDayOfMonth (rowYear row) (3 * q)),
          'q'⟩) ∧
    (∀ m cell, 1 ≤ m → ((sp (rowData row)).2.2)[m - 1]? = some cell →
      dps[(if (sp (rowData row)).1 ≠ "" then 1 else 0) +
          ((sp (rowData row)).2.1).length + (m - 1)]? =
        some ⟨label, okValue cell,
          Date.mk (rowYear row) m (lastDayOfMonth (rowYear row) m), 'm'⟩) := by
  have hmap := extract_row_ok_eq hok
  refine ⟨?_, ?_, ?_, ?_⟩
  · intro dp hdp
    rw [extract_row] at hok
    rcases mapE_ok_mem hok dp hdp with ⟨p, hp, hfp⟩
    have hts : dp.time_index = p.ts ∧ dp.freq = p.freq := by
      cases htf : to_float p.cell with
      | error e =>
          simp only [htf] at hfp
          cases hfp
      | ok v =>
          simp only [htf] at hfp
          cases hfp
          exact ⟨rfl, rfl⟩
    simp only [row_points] at hp
    rcases List.mem_append.mp hp with hab | hmon
    · rcases List.mem_append.mp hab with ha | hqr
      · left
        by_cases hcond : (sp (rowData row)).1 ≠ ""
        · rw [if_pos hcond] at ha
          rcases List.mem_singleton.mp ha with rfl
          refine ⟨hts.2, hts.1, ?_⟩
          rw [hts.1]
          rfl
        · rw [if_neg hcond] at ha
          cases ha
      · right; left
        rcases List.mem_map.mp hqr with ⟨⟨i, c⟩, htq, rfl⟩
        have hlt : i < ((sp (rowData row)).2.1).length := mem_enum_lt _ i c htq
        refine ⟨hts.2, i + 1, by omega, by omega, ?_⟩
        rw [hts.1]
        show timestamp_quarter (rowYear row) (i + 1) = _
        rw [timestamp_quarter, timestamp_month, Nat.mul_comm]
    · right; right
      rcases List.mem_map.mp hmon with ⟨⟨i, c⟩, htm, rfl⟩
      have hlt : i < ((sp (rowData row)).2.2).length := mem_enum_lt _ i c htm
      refine ⟨hts.2, i + 1, by omega, by omega, ?_⟩
      rw [hts.1]
      show timestamp_month (rowYear row) (i + 1) = _
      rw [timestamp_month]
  · intro hcond
    rw [hmap, List.getElem?_map, row_points_annual sp row hcond]
    rfl
  · intro q cell h1 hq
    have hi := row_points_quarter sp row (q - 1) cell hq
    rw [hmap, List.getElem?_map, hi]
    have hq1 : q - 1 + 1 = q := by omega
    rw [hq1, timestamp_quarter, timestamp_month, Nat.mul_comm]
    rfl
  · intro m cell h1 hm
    have hi := row_points_month sp row (m - 1) cell hm
    rw [hmap, List.getElem?_map, hi]
    have hm1 : m - 1 + 1 = m := by omega
    rw [hm1, timestamp_month]
    rfl

/-- C6, witness: the GDP scenario row of the spec under splitter6,
    including the positional fact that the 4th quarterly value 1447 is
    stamped with the end of month 12. -/
theorem observation_timestamps_period_end_witness :
    ((splitter6 (rowData c6row)).2.1).length ≤ 4 ∧
    ((splitter6 (rowData c6row)).2.2).length ≤ 12 ∧
    extract_row "GDP_bln_rub" splitter6 c6row = Except.ok c6dps ∧
    (∀ dp ∈ c6dps,
      (dp.freq = 'a' ∧ dp.time_index = timestamp_annual (rowYear c6row) ∧
        dp.time_index.day = lastDayOfMonth (rowYear c6row) 12) ∨
      (dp.freq = 'q' ∧ ∃ q, 1 ≤ q ∧ q ≤ 4 ∧
        dp.time_index =
          Date.mk (rowYear c6row) (3 * q) (lastDayOfMonth (rowYear c6row) (3 * q))) ∨
      (dp.freq = 'm' ∧ ∃ m, 1 ≤ m ∧ m ≤ 12 ∧
        dp.time_index =
          Date.mk (rowYear c6row) m (lastDayOfMonth (rowYear c6row) m))) ∧
    c6dps[(if (splitter6 (rowData c6row)).1 ≠ "" then 1 else 0) + (4 - 1)]? =
      some ⟨"GDP_bln_rub", okValue "1447",
        Date.mk (rowYear c6row) (3 * 4) (lastDayOfMonth (rowYear c6row) (3 * 4)),
        'q'⟩ :=
  have h := observation_timestamps_period_end "GDP_bln_rub" splitter6 c6row c6dps
    (by decide) (by decide) (by rfl)
  ⟨by decide, by decide, by rfl, h.1, h.2.2.1 4 "1447" (by omega) (by rfl)⟩

/-! ### C7 — malformed cells are a hard error -/

theorem to_float_error_shape {s : String} {e : KepError}
    (h : to_float s = Except.error e) : e = KepError.malformedNumber s := by
  rw [to_float] at h
  by_cases hpl : trimChars s.data ∈ placeholderCells
  · rw [if_pos hpl] at h
    cases h
  · rw [if_neg hpl] at h
    cases hps : parseSigned ((trimChars s.data).map commaDot) with
    | some q => rw [hps] at h; cases h
    | none =>
        rw [hps] at h
        injection h with h
        exact h.symm

theorem filter_of_map {α β : Type} (g : α → β) (q : β → Bool) :
    ∀ l : List α, (l.map g).filter q = (l.filter (fun x => q (g x))).map g := by
  intro l
  induction l with
  | nil => rfl
  | cons x xs ih =>
      simp only [List.map_cons, List.filter_cons]
      cases hqx : q (g x) <;> simp [hqx, ih]

theorem okValue_isSome {c : String} (h : cell_malformed c = false) :
    (okValue c).isSome = !(cell_absent c) := by
  cases htf : to_float c with
  | error e => rw [cell_malformed, htf] at h; cases h
  | ok v =>
      cases v with
      | none =>
          rw [okValue, cell_absent, htf]
          rfl
      | some d =>
          rw [okValue, cell_absent, htf]
          rfl

/-- C7: a cell reaching make_datapoint that is non-empty, non-placeholder
    and non-numeric makes extraction raise MalformedNumber; when no such
    cell is present extraction succeeds and exactly the absent (empty or
    placeholder) cells contribute no observation. -/
theorem malformed_cell_raises (label : String) (sp : RowSplitter)
    (row : List String) :
    ((∃ p ∈ row_points sp row, cell_malformed p.cell = true) →
      ∃ c, cell_malformed c = true ∧
        extract_row label sp row =
          Except.error (KepError.malformedNumber c)) ∧
    ((∀ p ∈ row_points sp row, cell_malformed p.cell = false) →
      extract_row label sp row =
        Except.ok ((row_points sp row).map
          (fun p => ⟨label, okValue p.cell, p.ts, p.freq⟩)) ∧
      ((row_points sp row).map
          (fun p => (⟨label, okValue p.cell, p.ts, p.freq⟩ : Datapoint))).filter
          (fun d => d.value.isSome) =
        ((row_points sp row).filter (fun p => !(cell_absent p.cell))).map
          (fun p => ⟨label, okValue p.cell, p.ts, p.freq⟩)) := by
  constructor
  · rintro ⟨p0, hp0, hmal0⟩
    have hex : ∃ x ∈ row_points sp row, ∃ e,
        (fun p =>
          match to_float p.cell with
          | Except.error e => Except.error e
          | Except.ok v =>
              Except.ok (⟨label, v, p.ts, p.freq⟩ : Datapoint)) x =
          Except.error e := by
      refine ⟨p0, hp0, ?_⟩
      cases htf : to_float p0.cell with
      | error e => exact ⟨e, by simp only [htf]⟩
      | ok v => rw [cell_malformed, htf] at hmal0; cases hmal0
    rcases mapE_error_of_exists hex with ⟨x, hx, e, hfx, hmap⟩
    cases htf : to_float x.cell with
    | error e' =>
        simp only [htf] at hfx
        injection hfx with hfx
        refine ⟨x.cell, by rw [cell_malformed, htf], ?_⟩
        rw [extract_row, hmap, ← hfx, to_float_error_shape htf]
    | ok v =>
        simp only [htf] at hfx
        cases hfx
  · intro hclean
    constructor
    · rw [extract_row]
      apply mapE_ok_of_map
      intro p hp
      cases htf : to_float p.cell with
      | error e =>
          have := hclean p hp
          rw [cell_malformed, htf] at this
          cases this
      | ok v => simp [htf, okValue]
    · rw [filter_of_map]
      refine congrArg (List.map _) (List.filter_congr ?_)
      intro p hp
      exact okValue_isSome (hclean p hp)

/-- C7, witness: a row whose first non-year cell is the malformed text
    n/a? raises MalformedNumber instead of silently yielding nothing. -/
theorem malformed_cell_raises_witness :
    (∃ p ∈ row_points splitter6 c7row, cell_malformed p.cell = true) ∧
    ∃ c, cell_malformed c = true ∧
      extract_row "L" splitter6 c7row =
        Except.error (KepError.malformedNumber c) :=
  ⟨by decide, (malformed_cell_raises "L" splitter6 c7row).1 (by decide)⟩

/-! ### C1 — the missing-required-labels gate -/

theorem extract_row_error_shape {label : String} {sp : RowSplitter}
    {row : List String} {e : KepError}
    (h : extract_row label sp row = Except.error e) :
    ∃ c, e = KepError.malformedNumber c := by
  rw [extract_row] at h
  rcases mapE_error_mem h with ⟨p, hp, hfp⟩
  cases htf : to_float p.cell with
  | error e' =>
      simp only [htf] at hfp
      injection hfp with hfp
      exact ⟨p.cell, by rw [← hfp, to_float_error_shape htf]⟩
  | ok v =>
      simp only [htf] at hfp
      cases hfp

theorem extract_values_error_shape {label : String} {sp : RowSplitter}
    {drs : List (List String)} {e : KepError}
    (h : extract_values label sp drs = Except.error e) :
    ∃ c, e = KepError.malformedNumber c := by
  rw [extract_values] at h
  cases hm : mapE (extract_row label sp) drs with
  | error e' =>
      rw [hm] at h
      injection h with h
      rcases mapE_error_mem hm with ⟨r, _, hr⟩
      rcases extract_row_error_shape hr with ⟨c, rfl⟩
      exact ⟨c, h.symm⟩
  | ok ls =>
      rw [hm] at h
      cases h

theorem tableValues_error_shape {t : KTable} {e : KepError}
    (h : tableValues t = Except.error e) :
    ∃ c, e = KepError.malformedNumber c := by
  rw [tableValues] at h
  cases hl : table_label t with
  | some l =>
      cases hs : t.splitter with
      | some sp =>
          rw [hl, hs] at h
          exact extract_values_error_shape h
      | none => rw [hl, hs] at h; cases h
  | none => rw [hl] at h; cases h

theorem mem_missed_labels (ts : List KTable) (required : List String)
    (l : String) :
    l ∈ missed_labels ts required ↔
      l ∈ required ∧ ∀ t ∈ ts, table_label t ≠ some l := by
  simp only [missed_labels, List.mem_dedup, List.mem_filter,
    Bool.not_eq_true', List.any_eq_false, decide_eq_true_eq]

/-- C1: whenever some required label is missing from the labels the
    parsed tables produce, evaluate_assignment fails with the
    missing-labels error naming exactly the set difference between the
    required labels and the produced labels (never a proper subset); it
    never raises this error when every required label is produced. -/
theorem evaluate_missing_labels_gate (rows : List (List String)) (pdef : Pdef)
    (ts : List KTable)
    (hp : parse_tables pdef (split_to_tables rows) = Except.ok ts) :
    ((∃ l ∈ pdef.required_labels, ∀ t ∈ ts, table_label t ≠ some l) →
      evaluate_assignment rows pdef =
        Except.error (KepError.missedLabels
          (missed_labels ts pdef.required_labels)) ∧
      missed_labels ts pdef.required_labels ≠ [] ∧
      ∀ l, l ∈ missed_labels ts pdef.required_labels ↔
        l ∈ pdef.required_labels ∧ ∀ t ∈ ts, table_label t ≠ some l) ∧
    ((∀ l ∈ pdef.required_labels, ∃ t ∈ ts, table_label t = some l) →
      ∀ L, evaluate_assignment rows pdef ≠
        Except.error (KepError.missedLabels L)) := by
  constructor
  · rintro ⟨l0, hl0, hall0⟩
    have hne : missed_labels ts pdef.required_labels ≠ [] := by
      intro hemp
      have hmem := (mem_missed_labels ts pdef.required_labels l0).mpr ⟨hl0, hall0⟩
      rw [hemp] at hmem
      cases hmem
    refine ⟨?_, hne, fun l => mem_missed_labels ts pdef.required_labels l⟩
    have h1 : evaluate_assignment rows pdef = evaluate_verified pdef ts := by
      rw [evaluate_assignment, hp]
    rw [h1, evaluate_verified, verify_tables, if_neg hne]
  · intro hall
    have hemp : missed_labels ts pdef.required_labels = [] := by
      rcases hne : missed_labels ts pdef.required_labels with _ | ⟨l, ls⟩
      · rfl
      · exfalso
        have hmem : l ∈ missed_labels ts pdef.required_labels := by
          rw [hne]
          exact List.mem_cons_self l ls
        rcases (mem_missed_labels ts pdef.required_labels l).mp hmem with ⟨hl, hnall⟩
        rcases hall l hl with ⟨t, ht, heq⟩
        exact hnall t ht heq
    have hv : verify_tables ts pdef.required_labels = Except.ok () := by
      rw [verify_tables, if_pos hemp]
    have h1 : evaluate_assignment rows pdef = evaluate_verified pdef ts := by
      rw [evaluate_assignment, hp]
    have h2 : evaluate_verified pdef ts = emit_values (keep_required pdef ts) := by
      rw [evaluate_verified, hv]
    intro L h
    rw [h1, h2, emit_values] at h
    cases hm : mapE tableValues (keep_required pdef ts) with
    | error e =>
        rw [hm] at h
        injection h with h
        rcases mapE_error_mem hm with ⟨t, _, htv⟩
        rcases tableValues_error_shape htv with ⟨c, rfl⟩
        cases h
    | ok vs =>
        rw [hm] at h
        cases h

/-- C1, witness: the spec scenario — requiring GDP_yoy while the
    document only yields GDP_bln_rub fails naming exactly GDP_yoy. -/
theorem evaluate_missing_labels_gate_witness :
    evaluate_assignment c1rows c1pdef =
      Except.error (KepError.missedLabels
        (missed_labels c1ts c1pdef.required_labels)) ∧
    missed_labels c1ts c1pdef.required_labels ≠ [] ∧
    ∀ l, l ∈ missed_labels c1ts c1pdef.required_labels ↔
      l ∈ c1pdef.required_labels ∧ ∀ t ∈ c1ts, table_label t ≠ some l :=
  (evaluate_missing_labels_gate c1rows c1pdef c1ts rfl).1
    ⟨"GDP_yoy", by decide, by
      intro t ht heq
      rw [c1ts] at ht
      rcases List.mem_singleton.mp ht with rfl
      exact absurd heq (by decide)⟩

/-- C10, witness at a concrete unresolved table. -/
theorem tableValues_undefined_empty_witness :
    ((⟨[], [["1999", "1"]], none, some "bln_rub", none⟩ : KTable).varname = none ∨
      (⟨[], [["1999", "1"]], none, some "bln_rub", none⟩ : KTable).unit = none ∨
      (⟨[], [["1999", "1"]], none, some "bln_rub", none⟩ : KTable).splitter = none) ∧
    tableValues ⟨[], [["1999", "1"]], none, some "bln_rub", none⟩ = Except.ok [] :=
  ⟨Or.inl rfl,
   tableValues_undefined_empty ⟨[], [["1999", "1"]], none, some "bln_rub", none⟩
     (Or.inl rfl)⟩

end Kep
